import Mathlib

/-!
Shallow embedding of the real-time audio/transport core of the
Gemini Live medical-intake frontend, and proofs checking the
natural-language specification against it.

Embedded components:
* the transcript turn segmenter (`appendTranscriptChunk` /
  `finalizeCurrentMessage` of the conversation store);
* the audio format detector, PCM16 conversions, and playback scheduler
  of `AudioManager` (frontend-zen `lib/audio-manager.ts`, quoted in
  `DOCS.md`), plus the AudioWorklet capture processor
  (`public/audio-processor.js`, quoted in `IMPLEMENTATION_SUMMARY.md`);
* the `WebSocketClient` health-probe, reconnect and disconnect logic
  (`frontend/lib/websocket-client.ts`).

Numbers that are IEEE doubles in the source are modelled as exact
rationals; JavaScript's `Int16Array` coercion (truncation toward zero)
is modelled explicitly.  Environment effects (the audio clock, the
network, container decoding, timers) are passed in as explicit inputs
or oracles; handler invocations are recorded in event logs.
-/

namespace Intake

/-! ## Transcript turn segmenter

From the conversation store (`useConversationStore`): state fields
`messages`, `currentAIChunk`, `currentPatientChunk`, `lastRole` and
actions `appendTranscriptChunk`, `finalizeCurrentMessage`.  Message
`id`s and `timestamp`s are environment-generated (random id, wall
clock) and carry no logic, so a Message is modelled by its role and
content. -/

/-- The whitespace class of JavaScript's `String.prototype.trim`
(restricted to the ASCII whitespace characters; the transcripts at
hand contain no exotic Unicode spaces). -/
def isJsWhitespace (c : Char) : Bool :=
  c = ' ' || c = '\t' || c = '\n' || c = '\r' || c = '\u000B' || c = '\u000C'

/-- JavaScript's `s.trim()`: strip leading and trailing whitespace. -/
def jsTrim (s : String) : String :=
  String.mk (((s.data.dropWhile isJsWhitespace).reverse.dropWhile isJsWhitespace).reverse)

inductive Role where
  | ai
  | patient
deriving DecidableEq, Repr

structure Message where
  role : Role
  content : String
deriving DecidableEq, Repr

structure ConversationState where
  messages : List Message
  currentAIChunk : String
  currentPatientChunk : String
  lastRole : Option Role
deriving DecidableEq, Repr

def initialConversation : ConversationState :=
  { messages := [], currentAIChunk := "", currentPatientChunk := "", lastRole := none }

/-- Action `appendTranscriptChunk(role, chunk)`: if the role changed and the
previous role's accumulator is non-empty after trimming, emit a Message
for the previous role and restart both accumulators; otherwise append
the chunk to the current role's accumulator. -/
def appendTranscriptChunk (s : ConversationState) (role : Role) (chunk : String) :
    ConversationState :=
  let emitted : Option ConversationState :=
    match s.lastRole with
    | some prevRole =>
        if prevRole ≠ role then
          let previousContent :=
            if prevRole = Role.ai then s.currentAIChunk else s.currentPatientChunk
          if jsTrim previousContent ≠ "" then
            some { messages := s.messages ++ [{ role := prevRole, content := jsTrim previousContent }],
                   currentAIChunk := if role = Role.ai then chunk else "",
                   currentPatientChunk := if role = Role.patient then chunk else "",
                   lastRole := some role }
          else none
        else none
    | none => none
  match emitted with
  | some s' => s'
  | none =>
      match role with
      | Role.ai =>
          { s with currentAIChunk := s.currentAIChunk ++ chunk, lastRole := some Role.ai }
      | Role.patient =>
          { s with currentPatientChunk := s.currentPatientChunk ++ chunk, lastRole := some Role.patient }

/-- Action `finalizeCurrentMessage()`: flush the current role's accumulator
into a Message when `lastRole` is set and the trimmed content is
non-empty; otherwise leave the state unchanged. -/
def finalizeCurrentMessage (s : ConversationState) : ConversationState :=
  let content := if s.lastRole = some Role.ai then s.currentAIChunk else s.currentPatientChunk
  match s.lastRole with
  | none => s
  | some r =>
      if jsTrim content = "" then s
      else
        { messages := s.messages ++ [{ role := r, content := jsTrim content }],
          currentAIChunk := "",
          currentPatientChunk := "",
          lastRole := none }

/-- An operation on the segmenter: a streamed transcript chunk or an
explicit finalize signal (`turn_complete`). -/
inductive SegOp where
  | chunk (role : Role) (text : String)
  | finalize
deriving DecidableEq, Repr

def applySegOp (s : ConversationState) : SegOp → ConversationState
  | SegOp.chunk r t => appendTranscriptChunk s r t
  | SegOp.finalize => finalizeCurrentMessage s

def runSegOps (s : ConversationState) (ops : List SegOp) : ConversationState :=
  ops.foldl applySegOp s

/-! ## PCM16 ↔ float conversion

`AudioManager.convertToPCM16` (and, character for character, the
conversion loop of `AudioCaptureProcessor.process` in
`public/audio-processor.js`) maps each float sample `x` through
`s = Math.max(-1, Math.min(1, x)); s < 0 ? s * 0x8000 : s * 0x7FFF`
and stores the result in an `Int16Array`.  `AudioManager.pcm16ToAudioBuffer`
maps a 16-bit sample `q` back to `q / 0x8000`.  Samples are modelled as
exact rationals. -/

/-- JavaScript's number-to-integer conversion used by `Int16Array`
element stores: truncation toward zero.  (For the clamped samples at
hand the result is already within the 16-bit range, so the wrap-around
step of `ToInt16` never fires.) -/
def jsTrunc (x : ℚ) : ℤ :=
  if x < 0 then ⌈x⌉ else ⌊x⌋

/-- Clamping `Math.max(-1, Math.min(1, x))`. -/
def clampSample (x : ℚ) : ℚ :=
  max (-1) (min 1 x)

/-- One sample of `AudioManager.convertToPCM16`:
`s < 0 ? s * 0x8000 : s * 0x7FFF` after clamping. -/
def convertToPCM16Sample (x : ℚ) : ℤ :=
  let s := clampSample x
  if s < 0 then jsTrunc (s * 32768) else jsTrunc (s * 32767)

/-- One sample of the inverse scaling in `AudioManager.pcm16ToAudioBuffer`:
`pcm16[i] / 0x8000`. -/
def pcm16SampleToFloat (q : ℤ) : ℚ :=
  (q : ℚ) / 32768

/-- One sample of the Float32→PCM16 loop in `AudioCaptureProcessor.process`
(`public/audio-processor.js`, the AudioWorklet capture path):
`s = Math.max(-1, Math.min(1, this.buffer[j])); s < 0 ? s * 0x8000 : s * 0x7FFF`. -/
def workletSampleToPCM16 (x : ℚ) : ℤ :=
  let s := max (-1) (min 1 x)
  if s < 0 then jsTrunc (s * 32768) else jsTrunc (s * 32767)

/-- Conversion `AudioManager.convertToPCM16` over a whole captured frame (the
main-thread `ScriptProcessorNode` legacy path feeds 4096-sample buffers
straight into this). -/
def convertToPCM16 (frame : List ℚ) : List ℤ :=
  frame.map convertToPCM16Sample

/-- The Float32→PCM16 frame conversion performed inside
`AudioCaptureProcessor.process` once its 4096-sample buffer is full. -/
def workletConvertFrame (frame : List ℚ) : List ℤ :=
  frame.map workletSampleToPCM16

/-! ## Format detector

`AudioManager.detectAudioFormat`: inspect the first four bytes of the
buffer for known container signatures.  Bytes are naturals `< 256`
(the values a `Uint8Array` yields). -/

inductive AudioFormat where
  | rawPcm
  | encoded
deriving DecidableEq, Repr

def detectAudioFormat (data : List ℕ) : AudioFormat :=
  if data.length < 4 then AudioFormat.rawPcm
  else
    let m0 := data.getD 0 0
    let m1 := data.getD 1 0
    let m2 := data.getD 2 0
    let m3 := data.getD 3 0
    -- WAV: "RIFF"
    if m0 = 0x52 ∧ m1 = 0x49 ∧ m2 = 0x46 ∧ m3 = 0x46 then AudioFormat.encoded
    -- MP3: frame sync (0xFF followed by a byte whose top three bits are set) or "ID3"
    else if (m0 = 0xFF ∧ Nat.land m1 0xE0 = 0xE0) ∨ (m0 = 0x49 ∧ m1 = 0x44 ∧ m2 = 0x33) then
      AudioFormat.encoded
    -- OGG: "OggS"
    else if m0 = 0x4F ∧ m1 = 0x67 ∧ m2 = 0x67 ∧ m3 = 0x53 then AudioFormat.encoded
    -- WebM/Matroska: 0x1A 0x45 0xDF 0xA3
    else if m0 = 0x1A ∧ m1 = 0x45 ∧ m2 = 0xDF ∧ m3 = 0xA3 then AudioFormat.encoded
    -- FLAC: "fLaC"
    else if m0 = 0x66 ∧ m1 = 0x4C ∧ m2 = 0x61 ∧ m3 = 0x43 then AudioFormat.encoded
    else AudioFormat.rawPcm

/-- The spec's wording of the `encoded` classification: at least four
bytes, beginning with `RIFF`, `OggS`, `fLaC`, an ID3 tag, an MP3
frame-sync pattern (0xFF then a byte with its top three bits set, i.e.
at least 0xE0), or the Matroska magic number. -/
def isEncodedSignature (data : List ℕ) : Prop :=
  4 ≤ data.length ∧
    (data.take 4 = [0x52, 0x49, 0x46, 0x46] ∨
     data.take 4 = [0x4F, 0x67, 0x67, 0x53] ∨
     data.take 4 = [0x66, 0x4C, 0x61, 0x43] ∨
     data.take 3 = [0x49, 0x44, 0x33] ∨
     (data.getD 0 0 = 0xFF ∧ 0xE0 ≤ data.getD 1 0) ∨
     data.take 4 = [0x1A, 0x45, 0xDF, 0xA3])

instance (data : List ℕ) : Decidable (isEncodedSignature data) := by
  unfold isEncodedSignature
  infer_instance

/-! ## Playback scheduler

`AudioManager.playNextInQueue` drains `audioQueue`, scheduling each
dequeued buffer on the playback clock: if the `nextPlaybackTime`
cursor is behind `playbackContext.currentTime` it is reset to "now",
the buffer starts at the cursor, and the cursor advances by the
buffer's duration.  The clock reading is an input; one synchronous
drain sees a single reading. -/

/-- A decoded audio buffer: frame count and sample rate.
`duration = length / sampleRate` as in the Web Audio API. -/
structure AudioBuffer where
  length : ℕ
  sampleRate : ℚ
deriving DecidableEq, Repr

def AudioBuffer.duration (b : AudioBuffer) : ℚ :=
  (b.length : ℚ) / b.sampleRate

/-- One scheduling step of `playNextInQueue` (lines: reset the cursor
if it fell behind `currentTime`, schedule at the cursor, advance the
cursor by the duration).  Returns (scheduled start time, new cursor). -/
def scheduleStep (now cursor dur : ℚ) : ℚ × ℚ :=
  let c := if cursor < now then now else cursor
  (c, c + dur)

/-- The start times assigned to a sequence of dequeued buffers, where
the i-th dequeue happens at clock reading `now i` with duration
`dur i` (each entry of the list is one `(now, duration)` pair). -/
def schedTimes (cursor : ℚ) : List (ℚ × ℚ) → List ℚ
  | [] => []
  | f :: rest =>
      let p := scheduleStep f.1 cursor f.2
      p.1 :: schedTimes p.2 rest

/-- "Enqueued without stalls": at each dequeue the playback cursor has
not fallen behind the clock reading. -/
def noStall (cursor : ℚ) : List (ℚ × ℚ) → Prop
  | [] => True
  | f :: rest => f.1 ≤ cursor ∧ noStall (cursor + f.2) rest

/-! ## The inbound-fragment pipeline (`playAudioChunk`)

State and helpers of the `AudioManager` playback side.  Fallible Web
Audio operations are modelled in `Except`:
* `new Int16Array(buffer)` throws on an odd byte length;
* `createBuffer` throws on a zero frame count or an unsupported sample
  rate (the Web Audio API supports 8000–96000 Hz);
* `decodeAudioData` succeeds or fails according to the byte contents —
  the container decoder is not part of this repository, so its verdict
  `decodeOk` and its decoded result `decoded` are oracles. -/

structure PlayerState where
  audioQueue : List AudioBuffer
  isPlaying : Bool
  hasStartedPlayback : Bool
  nextPlaybackTime : ℚ
  /-- In-flight scheduled sources: (start time, buffer), in scheduling order. -/
  scheduled : List (ℚ × AudioBuffer)
deriving DecidableEq, Repr

def initialPlayer : PlayerState :=
  { audioQueue := [], isPlaying := false, hasStartedPlayback := false,
    nextPlaybackTime := 0, scheduled := [] }

/-- Constant `INITIAL_BUFFER_COUNT = 1` ("Buffer 1 chunk only"). -/
def INITIAL_BUFFER_COUNT : ℕ := 1

/-- The `while (this.audioQueue.length > 0)` drain of `playNextInQueue`,
at clock reading `now`: returns the newly scheduled (start, buffer)
pairs and the final cursor. -/
def drainQueue (now cursor : ℚ) : List AudioBuffer → List (ℚ × AudioBuffer) × ℚ
  | [] => ([], cursor)
  | b :: rest =>
      let p := scheduleStep now cursor b.duration
      let r := drainQueue now p.2 rest
      ((p.1, b) :: r.1, r.2)

/-- Method `AudioManager.playNextInQueue` at clock reading `now`. -/
def playNextInQueue (now : ℚ) (st : PlayerState) : PlayerState :=
  let r := drainQueue now st.nextPlaybackTime st.audioQueue
  { st with
    audioQueue := [],
    nextPlaybackTime := r.2,
    scheduled := st.scheduled ++ r.1,
    isPlaying := if st.audioQueue.isEmpty then st.isPlaying else true }

/-- Method `AudioManager.pcm16ToAudioBuffer`: interpret the bytes as 16-bit
samples and build a buffer at the declared source rate.  Only the
fallibility and the buffer geometry matter here; the per-sample float
values are covered by `pcm16SampleToFloat`. -/
def pcm16ToAudioBuffer (data : List ℕ) (sampleRate : ℚ) : Except Unit AudioBuffer :=
  if data.length % 2 ≠ 0 then Except.error ()
  else if data.length / 2 = 0 then Except.error ()
  else if sampleRate < 8000 ∨ 96000 < sampleRate then Except.error ()
  else Except.ok { length := data.length / 2, sampleRate := sampleRate }

/-- Operation `decodeAudioData`, as an oracle: the environment (the platform's
container decoder) either yields a decoded buffer or throws. -/
def decodeAudioData (decodeOk : Bool) (decoded : AudioBuffer) : Except Unit AudioBuffer :=
  if decodeOk then Except.ok decoded else Except.error ()

/-- The enqueue-and-schedule tail of the `try` block of
`playAudioChunk`: push the buffer, hold back while the initial
buffering gate is unsatisfied, otherwise start or extend playback. -/
def enqueueChunk (st : PlayerState) (now : ℚ) (b : AudioBuffer) : PlayerState :=
  let st1 := { st with audioQueue := st.audioQueue ++ [b] }
  if ¬st1.hasStartedPlayback ∧ st1.audioQueue.length < INITIAL_BUFFER_COUNT then st1
  else if ¬st1.isPlaying then playNextInQueue now { st1 with hasStartedPlayback := true }
  else playNextInQueue now st1

/-- The enqueue of the outer `catch` (final fallback): push the buffer
and start playback only if not already playing — no buffering gate, no
`hasStartedPlayback` update. -/
def enqueueFallback (st : PlayerState) (now : ℚ) (b : AudioBuffer) : PlayerState :=
  let st1 := { st with audioQueue := st.audioQueue ++ [b] }
  if ¬st1.isPlaying then playNextInQueue now st1 else st1

inductive PlayOutcome where
  /-- Zero-length chunk: skipped before any conversion. -/
  | skipped
  /-- Enqueued by the primary `try` block. -/
  | enqueued
  /-- Enqueued by the final raw-PCM fallback in the outer `catch`. -/
  | enqueuedFallback
  /-- Every fallback failed: the fragment is dropped. -/
  | dropped
deriving DecidableEq, Repr

/-- Method `AudioManager.playAudioChunk`: skip empty chunks, detect the
format, convert (decoding failures fall back to raw PCM), enqueue; if
the whole primary path failed, force one final raw-PCM conversion, and
drop the fragment only if that fails too. -/
def playAudioChunk (st : PlayerState) (now : ℚ) (data : List ℕ) (sampleRate : ℚ)
    (decodeOk : Bool) (decoded : AudioBuffer) : PlayerState × PlayOutcome :=
  if data.length = 0 then (st, PlayOutcome.skipped)
  else
    let primary : Except Unit AudioBuffer :=
      if detectAudioFormat data = AudioFormat.rawPcm then
        pcm16ToAudioBuffer data sampleRate
      else
        match decodeAudioData decodeOk decoded with
        | Except.ok b => Except.ok b
        | Except.error _ => pcm16ToAudioBuffer data sampleRate
    match primary with
    | Except.ok b => (enqueueChunk st now b, PlayOutcome.enqueued)
    | Except.error _ =>
        match pcm16ToAudioBuffer data sampleRate with
        | Except.ok b => (enqueueFallback st now b, PlayOutcome.enqueuedFallback)
        | Except.error _ => (st, PlayOutcome.dropped)

/-- Variant of `playAudioChunk` in an exception-transparent semantics: each
fallible operation runs in `Except`, and only the `catch` sites of the
source (the inner decode catch, the outer catch, and the catch around
the final fallback) handle errors.  An uncaught throw would surface as
`Except.error`. -/
def playAudioChunkE (st : PlayerState) (now : ℚ) (data : List ℕ) (sampleRate : ℚ)
    (decodeOk : Bool) (decoded : AudioBuffer) : Except Unit (PlayerState × PlayOutcome) :=
  if data.length = 0 then Except.ok (st, PlayOutcome.skipped)
  else
    let primary : Except Unit AudioBuffer :=
      if detectAudioFormat data = AudioFormat.rawPcm then
        pcm16ToAudioBuffer data sampleRate
      else
        -- inner try/catch around decodeAudioData
        match decodeAudioData decodeOk decoded with
        | Except.ok b => Except.ok b
        | Except.error _ => pcm16ToAudioBuffer data sampleRate
    -- outer try/catch
    match primary with
    | Except.ok b => Except.ok (enqueueChunk st now b, PlayOutcome.enqueued)
    | Except.error _ =>
        -- catch around the final fallback
        match pcm16ToAudioBuffer data sampleRate with
        | Except.ok b => Except.ok (enqueueFallback st now b, PlayOutcome.enqueuedFallback)
        | Except.error _ => Except.ok (st, PlayOutcome.dropped)

/-! ## Transport client (`WebSocketClient`)

`frontend/lib/websocket-client.ts`.  The socket and its timers are
environment objects; the client is modelled as the state it mutates
(`ws`, `reconnectAttempts`) together with logs of its observable
actions: retry-observer invocations, error-handler invocations,
disconnected-handler invocations, and the delays of reconnects it
passes to `setTimeout`.  Configuration: `maxReconnectAttempts = 5`,
`reconnectDelay = 1000` (ms), `maxHealthCheckAttempts = 10`. -/

def maxReconnectAttempts : ℕ := 5
def reconnectDelay : ℕ := 1000
def maxHealthCheckAttempts : ℕ := 10

structure ClientState where
  /-- Whether `this.ws !== null`. -/
  wsPresent : Bool
  reconnectAttempts : ℕ
  /-- Arguments of each `onRetryHandler(attempt, maxAttempts)` call, in order. -/
  retryCalls : List (ℕ × ℕ)
  /-- Number of `onErrorHandler` invocations made by `attemptReconnect`. -/
  errorCalls : ℕ
  /-- Number of `onDisconnectedHandler` invocations. -/
  disconnectedCalls : ℕ
  /-- Delays (ms) of the reconnects handed to `setTimeout`, in order. -/
  scheduledDelays : List ℕ
deriving DecidableEq, Repr

/-- A freshly connected client: socket open, no retries yet, no
handler invocations recorded. -/
def connectedClient : ClientState :=
  { wsPresent := true, reconnectAttempts := 0, retryCalls := [], errorCalls := 0,
    disconnectedCalls := 0, scheduledDelays := [] }

/-- Method `WebSocketClient.attemptReconnect`: below the budget, bump the
counter, report `(attempt, maxAttempts)` to the retry observer and
schedule a reconnect after `reconnectDelay * attempt`; at the budget,
invoke the error handler with the terminal reconnect failure. -/
def attemptReconnect (st : ClientState) : ClientState :=
  if st.reconnectAttempts < maxReconnectAttempts then
    let a := st.reconnectAttempts + 1
    { st with
      reconnectAttempts := a,
      retryCalls := st.retryCalls ++ [(a, maxReconnectAttempts)],
      scheduledDelays := st.scheduledDelays ++ [reconnectDelay * a] }
  else
    { st with errorCalls := st.errorCalls + 1 }

/-- The `ws.onclose` handler: invoke the disconnected handler, then
`attemptReconnect` — unconditionally, also when the close was caused
by an explicit `disconnect()`. -/
def handleClose (st : ClientState) : ClientState :=
  attemptReconnect
    { st with wsPresent := false, disconnectedCalls := st.disconnectedCalls + 1 }

/-- The `ws.onopen` handler: the reconnect counter resets to zero. -/
def handleOpen (st : ClientState) : ClientState :=
  { st with wsPresent := true, reconnectAttempts := 0 }

/-- Method `WebSocketClient.disconnect()`: close and null the socket if
present; nothing else — no timer is stored, so none is cancelled. -/
def disconnect (st : ClientState) : ClientState :=
  if st.wsPresent then { st with wsPresent := false } else st

/-- Run of `n` consecutive unexpected socket closes (each reconnect attempt's
socket failing and closing again, with no successful open in
between). -/
def runCloses (n : ℕ) : ClientState :=
  Nat.rec connectedClient (fun _ st => handleClose st) n

/-! ### Health probe (`waitForBackend` / `connect`)

`connect()` first awaits `waitForBackend()`, which polls
`checkBackendHealth()` up to `maxHealthCheckAttempts` times with delay
`min(500 * attempt, 3000)` after each failure, and only then opens the
WebSocket.  `probe k` is the environment's verdict on the (k+1)-th
health check.  The run is modelled as its ordered trace of observable
events; note the loop body contains no retry-observer invocation. -/

inductive ConnectEvent where
  /-- One `checkBackendHealth()` poll and its verdict. -/
  | probe (ok : Bool)
  /-- One backoff wait of the given length (ms). -/
  | delay (ms : ℕ)
  /-- Step `new WebSocket(wsUrl)`: the real connection is opened. -/
  | openSocket
  /-- An `onRetryHandler` invocation. -/
  | retryCall (attempt : ℕ) (maxAttempts : ℕ)
deriving DecidableEq, Repr

/-- The `while (healthCheckAttempts < maxHealthCheckAttempts)` loop of
`waitForBackend`, with `fuel = maxHealthCheckAttempts - attempts`. -/
def healthTrace (probe : ℕ → Bool) (attempts : ℕ) : ℕ → List ConnectEvent
  | 0 => []
  | fuel + 1 =>
      if probe attempts then [ConnectEvent.probe true]
      else
        ConnectEvent.probe false ::
          ConnectEvent.delay (min (500 * (attempts + 1)) 3000) ::
            healthTrace probe (attempts + 1) fuel

/-- The observable trace of `connect()` up to the socket opening:
the health-probe loop, then `new WebSocket(...)`. -/
def connectTrace (probe : ℕ → Bool) : List ConnectEvent :=
  healthTrace probe 0 maxHealthCheckAttempts ++ [ConnectEvent.openSocket]

def isProbeEvent : ConnectEvent → Bool
  | ConnectEvent.probe _ => true
  | _ => false

def isRetryCallEvent : ConnectEvent → Bool
  | ConnectEvent.retryCall _ _ => true
  | _ => false

/-- A health endpoint that fails the first three probes and succeeds
from the fourth on. -/
def probeFailsThrice (k : ℕ) : Bool :=
  decide (3 ≤ k)

/-- The segmenter invariant that actually holds: the role that is not
currently accumulating holds at most whitespace (its trimmed
accumulator is empty), and with no active role both trimmed
accumulators are empty. -/
def segInv (s : ConversationState) : Prop :=
  match s.lastRole with
  | none => jsTrim s.currentAIChunk = "" ∧ jsTrim s.currentPatientChunk = ""
  | some Role.ai => jsTrim s.currentPatientChunk = ""
  | some Role.patient => jsTrim s.currentAIChunk = ""

/-! ## Theorems -/

theorem jsTrim_empty : jsTrim "" = "" := rfl

theorem segInv_append (s : ConversationState) (role : Role) (chunk : String)
    (hs : segInv s) : segInv (appendTranscriptChunk s role chunk) := by
  rcases s with ⟨msgs, aChunk, pChunk, lastRole⟩
  rcases lastRole with _ | prevRole
  · rcases role with _ | _ <;>
      simp_all [appendTranscriptChunk, segInv]
  · rcases prevRole with _ | _ <;> rcases role with _ | _ <;>
      simp_all [appendTranscriptChunk, segInv] <;>
      split_ifs with h <;>
      simp_all [segInv, jsTrim_empty]

theorem segInv_finalize (s : ConversationState) (hs : segInv s) :
    segInv (finalizeCurrentMessage s) := by
  rcases s with ⟨msgs, aChunk, pChunk, lastRole⟩
  rcases lastRole with _ | r
  · simpa [finalizeCurrentMessage, segInv] using hs
  · rcases r with _ | _ <;>
      simp_all [finalizeCurrentMessage, segInv] <;>
      split_ifs with h <;>
      simp_all [segInv, jsTrim_empty]

/-- C9 (amended): in every state reachable from the empty segmenter
state, the non-accumulating role's accumulator is empty after trimming
(it may hold whitespace), and when no role is active both trimmed
accumulators are empty. -/
theorem segmenter_invariant (ops : List SegOp) :
    segInv (runSegOps initialConversation ops) := by
  have pres : ∀ s op, segInv s → segInv (applySegOp s op) := by
    intro s op hs
    cases op with
    | chunk r t => exact segInv_append s r t hs
    | finalize => exact segInv_finalize s hs
  have run : ∀ (l : List SegOp) (s : ConversationState), segInv s → segInv (runSegOps s l) := by
    intro l
    induction l with
    | nil => intro s hs; exact hs
    | cons op rest ih =>
        intro s hs
        exact ih (applySegOp s op) (pres s op hs)
  exact run ops initialConversation ⟨rfl, rfl⟩

/-- C9, the claim as frozen, is false: after a whitespace-only AI chunk
followed by a patient chunk, `lastRole` is `patient` while the AI
accumulator still holds the (untrimmed) whitespace, so the other
role's accumulator is not empty. -/
theorem segmenter_invariant_counterexample :
    (appendTranscriptChunk (appendTranscriptChunk initialConversation Role.ai " ")
        Role.patient "Hi").lastRole = some Role.patient ∧
    (appendTranscriptChunk (appendTranscriptChunk initialConversation Role.ai " ")
        Role.patient "Hi").currentAIChunk ≠ "" := by
  decide

/-- C5: on the chunk sequence (ai,"Hel") (ai,"lo") (patient,"Hi") from
the empty state, no Message exists before the role switch, exactly one
Message {ai, "Hello"} is emitted by the switch (the patient chunk
"Hi" sitting in the accumulator, not yet a Message), and a subsequent
`turn_complete` finalize flushes exactly one further Message
{patient, "Hi"}. -/
theorem turn_segmentation_scenario :
    (runSegOps initialConversation [SegOp.chunk Role.ai "Hel", SegOp.chunk Role.ai "lo"]).messages
        = [] ∧
    (runSegOps initialConversation [SegOp.chunk Role.ai "Hel", SegOp.chunk Role.ai "lo"]).currentAIChunk
        = "Hello" ∧
    (runSegOps initialConversation
        [SegOp.chunk Role.ai "Hel", SegOp.chunk Role.ai "lo", SegOp.chunk Role.patient "Hi"]).messages
        = [{ role := Role.ai, content := "Hello" }] ∧
    (runSegOps initialConversation
        [SegOp.chunk Role.ai "Hel", SegOp.chunk Role.ai "lo", SegOp.chunk Role.patient "Hi"]).currentPatientChunk
        = "Hi" ∧
    (runSegOps initialConversation
        [SegOp.chunk Role.ai "Hel", SegOp.chunk Role.ai "lo", SegOp.chunk Role.patient "Hi",
         SegOp.finalize]).messages
        = [{ role := Role.ai, content := "Hello" }, { role := Role.patient, content := "Hi" }] ∧
    (runSegOps initialConversation
        [SegOp.chunk Role.ai "Hel", SegOp.chunk Role.ai "lo", SegOp.chunk Role.patient "Hi",
         SegOp.finalize]).lastRole = none := by
  decide

set_option maxRecDepth 4096 in
theorem land_top_three_bits (b : ℕ) (hb : b < 256) :
    Nat.land b 0xE0 = 0xE0 ↔ 0xE0 ≤ b := by
  revert hb
  revert b
  decide

/-- C3: `detectAudioFormat` classifies a byte buffer as `encoded`
exactly when it has at least 4 bytes and begins with "RIFF", "OggS",
"fLaC", an ID3 tag, an MP3 frame-sync pattern, or the Matroska/WebM
magic number; every other buffer (all-zero buffers and buffers shorter
than 4 bytes included) is `raw-pcm`. -/
theorem detect_audio_format_spec (data : List ℕ) (h : ∀ b ∈ data, b < 256) :
    detectAudioFormat data = AudioFormat.encoded ↔ isEncodedSignature data := by
  match data with
  | [] => simp [detectAudioFormat, isEncodedSignature]
  | [b0] => simp [detectAudioFormat, isEncodedSignature]
  | [b0, b1] => simp [detectAudioFormat, isEncodedSignature]
  | [b0, b1, b2] => simp [detectAudioFormat, isEncodedSignature]
  | b0 :: b1 :: b2 :: b3 :: rest =>
    have hb1 : b1 < 256 := h b1 (by simp)
    have hmp3 := land_top_three_bits b1 hb1
    simp only [detectAudioFormat, isEncodedSignature, List.length_cons,
      List.getD_cons_zero, List.getD_cons_succ, List.take_succ_cons, List.take_zero]
    rw [if_neg (by omega)]
    split_ifs with h1 h2 h3 h4 h5
    · obtain ⟨e0, e1, e2, e3⟩ := h1
      subst e0; subst e1; subst e2; subst e3
      exact iff_of_true rfl ⟨by omega, Or.inl rfl⟩
    · refine iff_of_true rfl ⟨by omega, ?_⟩
      rcases h2 with ⟨a0, aland⟩ | ⟨a0, a1, a2⟩
      · exact Or.inr (Or.inr (Or.inr (Or.inr (Or.inl ⟨a0, hmp3.mp aland⟩))))
      · subst a0; subst a1; subst a2
        exact Or.inr (Or.inr (Or.inr (Or.inl rfl)))
    · obtain ⟨e0, e1, e2, e3⟩ := h3
      subst e0; subst e1; subst e2; subst e3
      exact iff_of_true rfl ⟨by omega, Or.inr (Or.inl rfl)⟩
    · obtain ⟨e0, e1, e2, e3⟩ := h4
      subst e0; subst e1; subst e2; subst e3
      exact iff_of_true rfl ⟨by omega, Or.inr (Or.inr (Or.inr (Or.inr (Or.inr rfl))))⟩
    · obtain ⟨e0, e1, e2, e3⟩ := h5
      subst e0; subst e1; subst e2; subst e3
      exact iff_of_true rfl ⟨by omega, Or.inr (Or.inr (Or.inl rfl))⟩
    · refine iff_of_false (by simp) ?_
      rintro ⟨-, hd | hd | hd | hd | hd | hd⟩
      · simp only [List.cons.injEq, and_true] at hd
        exact h1 ⟨hd.1, hd.2.1, hd.2.2.1, hd.2.2.2⟩
      · simp only [List.cons.injEq, and_true] at hd
        exact h3 ⟨hd.1, hd.2.1, hd.2.2.1, hd.2.2.2⟩
      · simp only [List.cons.injEq, and_true] at hd
        exact h5 ⟨hd.1, hd.2.1, hd.2.2.1, hd.2.2.2⟩
      · simp only [List.cons.injEq, and_true] at hd
        exact h2 (Or.inr ⟨hd.1, hd.2.1, hd.2.2⟩)
      · exact h2 (Or.inl ⟨hd.1, hmp3.mpr hd.2⟩)
      · simp only [List.cons.injEq, and_true] at hd
        exact h4 ⟨hd.1, hd.2.1, hd.2.2.1, hd.2.2.2⟩

/-- C10: the AudioWorklet capture path (`AudioCaptureProcessor.process`)
and the main-thread legacy path (`ScriptProcessorNode` feeding
`AudioManager.convertToPCM16`) convert samples identically — clamp to
[-1,1], scale negatives by 32768 and non-negatives by 32767 — and on
any 4096-sample captured frame produce the same 4096-sample PCM16
frame. -/
theorem capture_path_equivalence :
    (∀ x : ℚ, workletSampleToPCM16 x = convertToPCM16Sample x) ∧
    (∀ x : ℚ, workletSampleToPCM16 x =
      (if clampSample x < 0 then jsTrunc (clampSample x * 32768)
       else jsTrunc (clampSample x * 32767))) ∧
    (∀ frame : List ℚ, frame.length = 4096 →
      workletConvertFrame frame = convertToPCM16 frame ∧
      (workletConvertFrame frame).length = 4096) := by
  refine ⟨fun x => rfl, fun x => rfl, fun frame hlen => ⟨rfl, ?_⟩⟩
  simpa [workletConvertFrame] using hlen

/-- Witness for `capture_path_equivalence` at a concrete 4096-sample
frame of silence. -/
theorem capture_path_equivalence_witness :
    workletConvertFrame (List.replicate 4096 (0 : ℚ)) =
      convertToPCM16 (List.replicate 4096 (0 : ℚ)) ∧
    (workletConvertFrame (List.replicate 4096 (0 : ℚ))).length = 4096 :=
  capture_path_equivalence.2.2 (List.replicate 4096 (0 : ℚ)) (by rw [List.length_replicate])

/-- Witness for `detect_audio_format_spec` at a concrete RIFF header. -/
theorem detect_audio_format_spec_witness :
    detectAudioFormat [0x52, 0x49, 0x46, 0x46] = AudioFormat.encoded ↔
      isEncodedSignature [0x52, 0x49, 0x46, 0x46] :=
  detect_audio_format_spec [0x52, 0x49, 0x46, 0x46] (by decide)

/-- C2, the claim as frozen, is false: the sample 65535/65536 lies in
[-1, 1], yet its PCM16 round trip errs by 3/65536 = 1.5/32768, more
than one quantization step.  (The non-negative branch scales by 32767
but the way back divides by 32768, stretching the error.) -/
theorem pcm_roundtrip_counterexample :
    (-1 : ℚ) ≤ 65535 / 65536 ∧ (65535 / 65536 : ℚ) ≤ 1 ∧
    1 / 32768 <
      |65535 / 65536 - pcm16SampleToFloat (convertToPCM16Sample (65535 / 65536))| := by
  have h : convertToPCM16Sample (65535 / 65536) = 32766 := by
    norm_num [convertToPCM16Sample, clampSample, jsTrunc, min_def, max_def]
  refine ⟨by norm_num, by norm_num, ?_⟩
  rw [h, pcm16SampleToFloat, abs_of_pos (by norm_num)]
  norm_num

/-- C2 (amended): for every float sample f in [-1, 1], the PCM16 round
trip (clamp, scale negatives by 32768 and non-negatives by 32767,
divide by 32768 on the way back) yields a value within TWO quantization
steps of f (strictly below 2/32768; the one-step bound does hold for
negative samples), and the extremes are exact with no overflow:
-1 ↦ -32768, 1 ↦ 32767, and every sample lands in [-32768, 32767]. -/
theorem pcm_roundtrip (f : ℚ) (h1 : -1 ≤ f) (h2 : f ≤ 1) :
    |f - pcm16SampleToFloat (convertToPCM16Sample f)| < 2 / 32768 ∧
    (f < 0 → |f - pcm16SampleToFloat (convertToPCM16Sample f)| < 1 / 32768) ∧
    -32768 ≤ convertToPCM16Sample f ∧ convertToPCM16Sample f ≤ 32767 ∧
    convertToPCM16Sample (-1) = -32768 ∧ convertToPCM16Sample 1 = 32767 := by
  have hlow : convertToPCM16Sample (-1) = -32768 := by
    norm_num [convertToPCM16Sample, clampSample, jsTrunc, min_def, max_def]
    rw [show ((-32768 : ℚ)) = ((-32768 : ℤ) : ℚ) by norm_num, Int.ceil_intCast]
  have hhigh : convertToPCM16Sample 1 = 32767 := by
    norm_num [convertToPCM16Sample, clampSample, jsTrunc, min_def, max_def]
  have hclamp : clampSample f = f := by
    rw [clampSample, min_eq_right h2, max_eq_right h1]
  rcases lt_or_le f 0 with hf | hf
  · -- negative sample: value is the ceiling of f * 32768
    have hq : convertToPCM16Sample f = ⌈f * 32768⌉ := by
      rw [convertToPCM16Sample]
      simp only [hclamp]
      rw [if_pos hf, jsTrunc, if_pos (by nlinarith)]
    have hc1 : (f * 32768 : ℚ) ≤ (⌈f * 32768⌉ : ℚ) := Int.le_ceil _
    have hc2 : ((⌈f * 32768⌉ : ℤ) : ℚ) < f * 32768 + 1 := Int.ceil_lt_add_one _
    have hround : |f - pcm16SampleToFloat (convertToPCM16Sample f)| < 1 / 32768 := by
      rw [hq, pcm16SampleToFloat, abs_sub_lt_iff]
      constructor <;> linarith
    refine ⟨lt_trans hround (by norm_num), fun _ => hround, ?_, ?_, hlow, hhigh⟩
    · rw [hq]
      have : (-32768 : ℚ) ≤ (⌈f * 32768⌉ : ℚ) := by nlinarith
      exact_mod_cast this
    · rw [hq]
      have : ((⌈f * 32768⌉ : ℤ) : ℚ) < 32768 := by nlinarith
      have h32 : (⌈f * 32768⌉ : ℤ) < 32768 := by exact_mod_cast this
      omega
  · -- non-negative sample: value is the floor of f * 32767
    have hq : convertToPCM16Sample f = ⌊f * 32767⌋ := by
      rw [convertToPCM16Sample]
      simp only [hclamp]
      rw [if_neg (not_lt.mpr hf), jsTrunc, if_neg (by nlinarith)]
    have hc1 : ((⌊f * 32767⌋ : ℤ) : ℚ) ≤ f * 32767 := Int.floor_le _
    have hc2 : (f * 32767 : ℚ) < (⌊f * 32767⌋ : ℚ) + 1 := Int.lt_floor_add_one _
    refine ⟨?_, fun hneg => absurd hneg (not_lt.mpr hf), ?_, ?_, hlow, hhigh⟩
    · rw [hq, pcm16SampleToFloat, abs_sub_lt_iff]
      constructor <;> linarith
    · rw [hq]
      have : (-32768 : ℚ) ≤ (⌊f * 32767⌋ : ℚ) := by nlinarith
      exact_mod_cast this
    · rw [hq]
      have : ((⌊f * 32767⌋ : ℤ) : ℚ) ≤ 32767 := by nlinarith
      exact_mod_cast this

/-- Witness for `pcm_roundtrip` at the concrete sample 1/2. -/
theorem pcm_roundtrip_witness :
    |(1 / 2 : ℚ) - pcm16SampleToFloat (convertToPCM16Sample (1 / 2))| < 2 / 32768 ∧
    ((1 / 2 : ℚ) < 0 →
      |(1 / 2 : ℚ) - pcm16SampleToFloat (convertToPCM16Sample (1 / 2))| < 1 / 32768) ∧
    -32768 ≤ convertToPCM16Sample (1 / 2) ∧ convertToPCM16Sample (1 / 2) ≤ 32767 ∧
    convertToPCM16Sample (-1) = -32768 ∧ convertToPCM16Sample 1 = 32767 :=
  pcm_roundtrip (1 / 2) (by norm_num) (by norm_num)

theorem drainQueue_schedTimes (now : ℚ) :
    ∀ (bufs : List AudioBuffer) (cursor : ℚ),
      (drainQueue now cursor bufs).1.map Prod.fst =
        schedTimes cursor (bufs.map fun b => (now, b.duration)) := by
  intro bufs
  induction bufs with
  | nil => intro cursor; simp [drainQueue, schedTimes]
  | cons b rest ih =>
      intro cursor
      simp only [drainQueue, schedTimes, List.map_cons]
      exact congrArg _ (ih _)

theorem scheduleStep_of_noReset (now cursor dur : ℚ) (h : now ≤ cursor) :
    scheduleStep now cursor dur = (cursor, cursor + dur) := by
  rw [scheduleStep]
  simp [not_lt.mpr h]

theorem schedTimes_of_noStall (frags : List (ℚ × ℚ)) :
    ∀ cursor : ℚ, noStall cursor frags →
      ∀ n, n < frags.length →
        (schedTimes cursor frags).getD n 0 =
          cursor + ((frags.take n).map Prod.snd).sum := by
  induction frags with
  | nil =>
      intro cursor _ n hn
      simp at hn
  | cons f rest ih =>
      intro cursor hns n hn
      obtain ⟨hle, hrest⟩ := hns
      rw [schedTimes, scheduleStep_of_noReset f.1 cursor f.2 hle]
      cases n with
      | zero => simp
      | succ n =>
          rw [List.getD_cons_succ, List.take_succ_cons, List.map_cons, List.sum_cons,
            ih (cursor + f.2) hrest n (by simpa using hn)]
          ring

theorem schedTimes_mono (frags : List (ℚ × ℚ)) :
    ∀ cursor : ℚ, (∀ f ∈ frags, 0 ≤ f.2) →
      List.Chain' (· ≤ ·) (schedTimes cursor frags) := by
  induction frags with
  | nil =>
      intro cursor _
      simp [schedTimes]
  | cons f rest ih =>
      intro cursor hd
      rw [schedTimes, List.chain'_cons']
      refine ⟨?_, ih _ fun g hg => hd g (List.mem_cons_of_mem _ hg)⟩
      intro y hy
      have hf : 0 ≤ f.2 := hd f (List.mem_cons_self f rest)
      cases rest with
      | nil => simp [schedTimes] at hy
      | cons g rest2 =>
          rw [schedTimes] at hy
          simp only [List.head?_cons, Option.mem_def, Option.some.injEq] at hy
          subst hy
          rw [scheduleStep, scheduleStep]
          dsimp only
          split_ifs with hr1 hr2 hr2 <;> linarith

/-- C1: when no stall occurs between enqueues (the cursor never falls
behind the clock after the first fragment is scheduled), the nth
scheduled start time equals the first fragment's start time plus the
sum of the durations of fragments 1..n-1; with non-negative durations
the start times are monotonically non-decreasing.  A fragment is a
(clock reading, duration) pair; `c₀` is the initial cursor. -/
theorem gapless_scheduling (c₀ : ℚ) (f₁ : ℚ × ℚ) (rest : List (ℚ × ℚ))
    (hstall : noStall (scheduleStep f₁.1 c₀ f₁.2).2 rest)
    (hdur : ∀ f ∈ f₁ :: rest, 0 ≤ f.2) :
    (∀ n, n < (f₁ :: rest).length →
      (schedTimes c₀ (f₁ :: rest)).getD n 0 =
        (schedTimes c₀ (f₁ :: rest)).getD 0 0 +
          (((f₁ :: rest).take n).map Prod.snd).sum) ∧
    List.Chain' (· ≤ ·) (schedTimes c₀ (f₁ :: rest)) := by
  refine ⟨?_, schedTimes_mono (f₁ :: rest) c₀ hdur⟩
  intro n hn
  rw [schedTimes]
  cases n with
  | zero => simp
  | succ n =>
      rw [List.getD_cons_succ, List.getD_cons_zero, List.take_succ_cons, List.map_cons,
        List.sum_cons,
        schedTimes_of_noStall rest (scheduleStep f₁.1 c₀ f₁.2).2 hstall n
          (by simpa using hn)]
      rw [scheduleStep]
      dsimp only
      ring

/-- Witness for `gapless_scheduling`: three fragments of durations 2, 3
and 1 enqueued without stalls starting from cursor 0. -/
theorem gapless_scheduling_witness :
    (∀ n, n < ([((1 : ℚ), (2 : ℚ)), (2, 3), (4, 1)] : List (ℚ × ℚ)).length →
      (schedTimes 0 [((1 : ℚ), (2 : ℚ)), (2, 3), (4, 1)]).getD n 0 =
        (schedTimes 0 [((1 : ℚ), (2 : ℚ)), (2, 3), (4, 1)]).getD 0 0 +
          ((([((1 : ℚ), (2 : ℚ)), (2, 3), (4, 1)] : List (ℚ × ℚ)).take n).map Prod.snd).sum) ∧
    List.Chain' (· ≤ ·) (schedTimes 0 [((1 : ℚ), (2 : ℚ)), (2, 3), (4, 1)]) :=
  gapless_scheduling 0 (1, 2) [(2, 3), (4, 1)]
    (by constructor
        · norm_num [scheduleStep]
        · constructor
          · norm_num [scheduleStep]
          · trivial)
    (by intro f hf
        fin_cases hf <;> norm_num)

/-- C4: processing an inbound fragment never propagates an exception —
the exception-aware semantics `playAudioChunkE` always returns `ok`
with the result of the total function; an `encoded` fragment whose
container decode fails is converted as raw PCM and enqueued (first
fallback); a fragment is dropped exactly when it is non-empty, its
raw-PCM conversion fails, and no successful container decode rescued
it (i.e. every fallback failed); and a dropped fragment leaves the
playback state unchanged. -/
theorem fragment_fallback_chain (st : PlayerState) (now : ℚ) (data : List ℕ)
    (sampleRate : ℚ) (decodeOk : Bool) (decoded : AudioBuffer) :
    playAudioChunkE st now data sampleRate decodeOk decoded =
      Except.ok (playAudioChunk st now data sampleRate decodeOk decoded) ∧
    ((playAudioChunk st now data sampleRate decodeOk decoded).2 = PlayOutcome.dropped ↔
      (data.length ≠ 0 ∧ pcm16ToAudioBuffer data sampleRate = Except.error () ∧
        (detectAudioFormat data = AudioFormat.encoded → decodeOk = false))) ∧
    ((playAudioChunk st now data sampleRate decodeOk decoded).2 = PlayOutcome.dropped →
      (playAudioChunk st now data sampleRate decodeOk decoded).1 = st) ∧
    (∀ b, detectAudioFormat data = AudioFormat.encoded → decodeOk = false →
      pcm16ToAudioBuffer data sampleRate = Except.ok b →
      playAudioChunk st now data sampleRate decodeOk decoded =
        (enqueueChunk st now b, PlayOutcome.enqueued)) := by
  by_cases hlen : data.length = 0
  · have hdata : data = [] := List.length_eq_zero.mp hlen
    subst hdata
    simp [playAudioChunk, playAudioChunkE, detectAudioFormat]
  · cases hf : detectAudioFormat data with
    | rawPcm =>
        cases hp : pcm16ToAudioBuffer data sampleRate with
        | ok b => simp [playAudioChunk, playAudioChunkE, hlen, hf, hp]
        | error e =>
            cases e
            simp [playAudioChunk, playAudioChunkE, hlen, hf, hp]
    | encoded =>
        cases decodeOk with
        | true =>
            simp [playAudioChunk, playAudioChunkE, decodeAudioData, hlen, hf]
        | false =>
            cases hp : pcm16ToAudioBuffer data sampleRate with
            | ok b =>
                simp [playAudioChunk, playAudioChunkE, decodeAudioData, hlen, hf, hp]
            | error e =>
                cases e
                simp [playAudioChunk, playAudioChunkE, decodeAudioData, hlen, hf, hp]

/-- Witness for `fragment_fallback_chain`: a one-byte fragment (odd
byte length, so raw-PCM conversion fails) is dropped and leaves the
player untouched. -/
theorem fragment_fallback_chain_witness :
    playAudioChunkE initialPlayer 0 [0] 24000 false (AudioBuffer.mk 1 24000) =
      Except.ok (playAudioChunk initialPlayer 0 [0] 24000 false (AudioBuffer.mk 1 24000)) ∧
    (playAudioChunk initialPlayer 0 [0] 24000 false (AudioBuffer.mk 1 24000)).1 =
      initialPlayer :=
  ⟨(fragment_fallback_chain initialPlayer 0 [0] 24000 false (AudioBuffer.mk 1 24000)).1,
   (fragment_fallback_chain initialPlayer 0 [0] 24000 false (AudioBuffer.mk 1 24000)).2.2.1
     (by decide)⟩

/-- C6: for n up to the maximum of 5, after n consecutive unexpected
closes the retry observer has been invoked exactly n times with
arguments (1,5)..(n,5), each reconnect scheduled after
`reconnectDelay * attempt` (so delays are non-decreasing) and no
terminal error; on the close after the budget is exhausted no further
reconnect is scheduled and the error handler is invoked exactly
once. -/
theorem reconnect_backoff (n : ℕ) (hn : n ≤ 5) :
    ((runCloses n).retryCalls =
        (List.range n).map (fun k => (k + 1, maxReconnectAttempts)) ∧
      (runCloses n).scheduledDelays =
        (List.range n).map (fun k => reconnectDelay * (k + 1)) ∧
      List.Pairwise (· ≤ ·) (runCloses n).scheduledDelays ∧
      (runCloses n).errorCalls = 0) ∧
    ((runCloses 6).retryCalls =
        (List.range 5).map (fun k => (k + 1, maxReconnectAttempts)) ∧
      (runCloses 6).scheduledDelays = (runCloses 5).scheduledDelays ∧
      (runCloses 6).errorCalls = 1) := by
  refine ⟨?_, by decide⟩
  interval_cases n <;> decide

/-- Witness for `reconnect_backoff` at n = 3. -/
theorem reconnect_backoff_witness :
    ((runCloses 3).retryCalls =
        (List.range 3).map (fun k => (k + 1, maxReconnectAttempts)) ∧
      (runCloses 3).scheduledDelays =
        (List.range 3).map (fun k => reconnectDelay * (k + 1)) ∧
      List.Pairwise (· ≤ ·) (runCloses 3).scheduledDelays ∧
      (runCloses 3).errorCalls = 0) ∧
    ((runCloses 6).retryCalls =
        (List.range 5).map (fun k => (k + 1, maxReconnectAttempts)) ∧
      (runCloses 6).scheduledDelays = (runCloses 5).scheduledDelays ∧
      (runCloses 6).errorCalls = 1) :=
  reconnect_backoff 3 (by decide)

/-- C7, the claim as frozen, is false: after an explicit `disconnect()`
on a freshly connected client, the socket close event that the explicit
`close()` provokes still runs `attemptReconnect`, so the retry observer
is invoked and a reconnect is scheduled after `disconnect()`. -/
theorem disconnect_terminal_counterexample :
    (handleClose (disconnect connectedClient)).retryCalls = [(1, 5)] ∧
    (handleClose (disconnect connectedClient)).scheduledDelays = [1000] := by
  decide

/-- C7 (amended): `disconnect()` closes and nulls the socket, is
idempotent (a second call is a no-op) and itself invokes no handlers
and schedules nothing; but it cancels no reconnect timer (none is
stored), and the socket's resulting close event still triggers
`attemptReconnect`, so while the reconnect budget is not exhausted a
reconnect is scheduled and the retry observer invoked even after an
explicit `disconnect()`. -/
theorem disconnect_behavior (st : ClientState) :
    disconnect (disconnect st) = disconnect st ∧
    (disconnect st).wsPresent = false ∧
    (disconnect st).retryCalls = st.retryCalls ∧
    (disconnect st).errorCalls = st.errorCalls ∧
    (disconnect st).scheduledDelays = st.scheduledDelays ∧
    (st.reconnectAttempts < maxReconnectAttempts →
      (handleClose (disconnect st)).retryCalls =
        st.retryCalls ++ [(st.reconnectAttempts + 1, maxReconnectAttempts)] ∧
      (handleClose (disconnect st)).scheduledDelays =
        st.scheduledDelays ++ [reconnectDelay * (st.reconnectAttempts + 1)]) := by
  refine ⟨?_, ?_, ?_, ?_, ?_, ?_⟩ <;>
    by_cases hws : st.wsPresent <;>
      simp [disconnect, handleClose, attemptReconnect, hws] <;>
        intro hlt <;> simp [hlt]

/-- Witness for `disconnect_behavior` at the freshly connected
client. -/
theorem disconnect_behavior_witness :
    disconnect (disconnect connectedClient) = disconnect connectedClient ∧
    (disconnect connectedClient).wsPresent = false ∧
    (disconnect connectedClient).retryCalls = connectedClient.retryCalls ∧
    (disconnect connectedClient).errorCalls = connectedClient.errorCalls ∧
    (disconnect connectedClient).scheduledDelays = connectedClient.scheduledDelays ∧
    (connectedClient.reconnectAttempts < maxReconnectAttempts →
      (handleClose (disconnect connectedClient)).retryCalls =
        connectedClient.retryCalls ++
          [(connectedClient.reconnectAttempts + 1, maxReconnectAttempts)] ∧
      (handleClose (disconnect connectedClient)).scheduledDelays =
        connectedClient.scheduledDelays ++
          [reconnectDelay * (connectedClient.reconnectAttempts + 1)]) :=
  disconnect_behavior connectedClient

theorem healthTrace_succ (probe : ℕ → Bool) (a fuel : ℕ) :
    healthTrace probe a (fuel + 1) =
      if probe a then [ConnectEvent.probe true]
      else ConnectEvent.probe false ::
        ConnectEvent.delay (min (500 * (a + 1)) 3000) :: healthTrace probe (a + 1) fuel :=
  rfl

theorem healthTrace_probe_count (probe : ℕ → Bool) :
    ∀ fuel a, ((healthTrace probe a fuel).filter isProbeEvent).length ≤ fuel := by
  intro fuel
  induction fuel with
  | zero =>
      intro a
      simp [healthTrace]
  | succ fuel ih =>
      intro a
      rw [healthTrace_succ]
      by_cases hp : probe a
      · simp [hp, isProbeEvent]
      · have := ih (a + 1)
        simp only [hp, if_false, Bool.false_eq_true, List.filter_cons]
        simp [isProbeEvent]
        omega

/-- C8, the claim as frozen, is false: with a health endpoint that
fails the first three probes and succeeds on the fourth, the retry
observer is invoked zero times during `connect()`'s health gate (the
loop only logs), not three times. -/
theorem health_probe_observer_counterexample :
    ((connectTrace probeFailsThrice).filter isRetryCallEvent).length = 0 ∧
    ((connectTrace probeFailsThrice).filter isProbeEvent).length = 4 := by
  decide

/-- C8 (amended): if the health probe fails on its first three polls
and succeeds on the fourth, `connect()` opens the socket only after
the fourth probe (the trace is probe/delay ×3, then the successful
probe, then the socket open), with inter-poll delays
min(500·attempt, 3000) = 500, 1000, 1500 ms; at most 10 probes are
ever made, and the retry observer is not invoked by health probing. -/
theorem health_probe_gate (probe : ℕ → Bool) (h0 : probe 0 = false)
    (h1 : probe 1 = false) (h2 : probe 2 = false) (h3 : probe 3 = true) :
    connectTrace probe =
      [ConnectEvent.probe false, ConnectEvent.delay 500,
       ConnectEvent.probe false, ConnectEvent.delay 1000,
       ConnectEvent.probe false, ConnectEvent.delay 1500,
       ConnectEvent.probe true, ConnectEvent.openSocket] ∧
    (∀ q : ℕ → Bool,
      ((connectTrace q).filter isProbeEvent).length ≤ maxHealthCheckAttempts) ∧
    ((connectTrace probe).filter isRetryCallEvent).length = 0 := by
  have hmain : connectTrace probe =
      [ConnectEvent.probe false, ConnectEvent.delay 500,
       ConnectEvent.probe false, ConnectEvent.delay 1000,
       ConnectEvent.probe false, ConnectEvent.delay 1500,
       ConnectEvent.probe true, ConnectEvent.openSocket] := by
    rw [connectTrace, show maxHealthCheckAttempts = 10 from rfl]
    rw [healthTrace_succ, if_neg (by simp [h0])]
    rw [healthTrace_succ, if_neg (by simp [h1])]
    rw [healthTrace_succ, if_neg (by simp [h2])]
    rw [healthTrace_succ, if_pos (by simp [h3])]
    norm_num
  refine ⟨hmain, ?_, ?_⟩
  · intro q
    rw [connectTrace, show maxHealthCheckAttempts = 10 from rfl]
    have := healthTrace_probe_count q 10 0
    simp only [List.filter_append]
    simp [isProbeEvent]
    omega
  · rw [hmain]
    decide

/-- Witness for `health_probe_gate` at the concrete
fails-three-times probe. -/
theorem health_probe_gate_witness :
    connectTrace probeFailsThrice =
      [ConnectEvent.probe false, ConnectEvent.delay 500,
       ConnectEvent.probe false, ConnectEvent.delay 1000,
       ConnectEvent.probe false, ConnectEvent.delay 1500,
       ConnectEvent.probe true, ConnectEvent.openSocket] ∧
    (∀ q : ℕ → Bool,
      ((connectTrace q).filter isProbeEvent).length ≤ maxHealthCheckAttempts) ∧
    ((connectTrace probeFailsThrice).filter isRetryCallEvent).length = 0 :=
  health_probe_gate probeFailsThrice rfl rfl rfl rfl

end Intake
